import Mathlib

/-!
Verification development for the botfair session-lifecycle layer.

The definitions below are a shallow embedding of the repository's source:
src/json_rpc.rs (JSON-RPC envelopes), src/client.rs (the BFClient session
manager: req, req_internal, login, keepalive, keepalive_thread), and
src/lib.rs (an older variant of the client, embedded in namespace Lib).

Network effects are represented by oracles: each network interaction's
outcome is an explicit value (an HttpOutcome, LoginOutcome or KAOutcome)
supplied to the embedded function.  A Rust panic (unwrap of None,
unreachable) is represented by the value none of an Option-typed result.
-/

namespace Botfair

/-- Modelled from the spec: the enumerated remote error codes of the
exchange API.  The defining module (crate::generated_exceptions) is not
under src/; the two session-invalid codes INVALID_SESSION_INFORMATION and
NO_SESSION are named explicitly in src/client.rs, the remaining variants
are representative other codes of the taxonomy the spec describes as
passing through untouched. -/
inductive errorCode where
  | INVALID_SESSION_INFORMATION
  | NO_SESSION
  | TOO_MUCH_DATA
  | INVALID_INPUT_DATA
  | INVALID_APP_KEY
  | NO_APP_KEY
  | UNEXPECTED_ERROR
  | TOO_MANY_REQUESTS
  | SERVICE_BUSY
  | TIMEOUT_ERROR
  | REQUEST_SIZE_EXCEEDS_LIMIT
  | ACCESS_DENIED
  deriving DecidableEq, Repr

/-- src/client.rs KeepAliveError: the error values of the keep-alive
response. -/
inductive KeepAliveError where
  | NONE
  | INPUT_VALIDATION_ERROR
  | INTERNAL_ERROR
  | NO_SESSION
  deriving DecidableEq, Repr

/-- src/client.rs KeepAliveStatus. -/
inductive KeepAliveStatus where
  | SUCCESS
  | FAIL
  deriving DecidableEq, Repr

/-- src/client.rs KeepAliveResponse. -/
structure KeepAliveResponse where
  token : String
  product : String
  status : KeepAliveStatus
  error : Option KeepAliveError
  deriving DecidableEq, Repr

/-- Modelled from the spec: the error type of crate::result, whose file is
not under src/.  The variants are exactly those constructed or matched at
the use sites in src/client.rs and src/json_rpc.rs: Reqwest (a transport
or deserialization failure, carrying its description), the two auth
markers SessionTokenNotPresent and SessionTokenInvalid, APINGException (a
remote error code), JSONRPCError (envelope with neither result nor
error), BFLoginFailure and BFKeepAliveFailure. -/
inductive Error where
  | Reqwest (msg : String)
  | SessionTokenNotPresent
  | SessionTokenInvalid
  | APINGException (code : errorCode)
  | JSONRPCError
  | BFLoginFailure (msg : String)
  | BFKeepAliveFailure (err : KeepAliveError)
  deriving DecidableEq, Repr

/-- src/json_rpc.rs RpcError: the structured error of a response
envelope; message carries the enumerated remote error code. -/
structure RpcError where
  code : Int
  message : errorCode
  deriving DecidableEq, Repr

/-- src/json_rpc.rs RpcResponse: a response envelope with optional result
and optional error. -/
structure RpcResponse (T : Type) where
  jsonrpc : String
  result : Option T
  error : Option RpcError
  id : String
  deriving DecidableEq, Repr

/-- src/json_rpc.rs RpcResponse::into_inner: an error present takes
precedence (the code matches on (self.error, self.result) with the
Some-error arm first); otherwise a present result is returned; neither
present is the JSONRPCError protocol violation. -/
def RpcResponse.into_inner {T : Type} (self : RpcResponse T) : Except Error T :=
  match self.error, self.result with
  | some rpc_error, _ => .error (.APINGException rpc_error.message)
  | none, some result => .ok result
  | none, none => .error .JSONRPCError

/-- src/client.rs LoginResponse. -/
structure LoginResponse where
  sessionToken : Option String
  loginStatus : String
  deriving DecidableEq, Repr

/-- Outcome of the single HTTP interaction of one business call in
req_internal (src/client.rs lines 206-246): the send() call can fail with
an InvalidHeaderValue error (a garbage token rejected at the transport
layer), or with any other transport error; the deserialization of the
body can fail; or a response envelope is obtained. -/
inductive HttpOutcome (T : Type) where
  | sendErrInvalidHeader
  | sendErrOther (msg : String)
  | deserErr (msg : String)
  | ok (resp : RpcResponse T)
  deriving DecidableEq, Repr

/-- src/client.rs BFClient::req_internal (lines 190-266), as a function of
the token snapshot and the HTTP outcome.  Returns none where the source
panics (the unreachable! arm for error shapes into_inner never returns).
With no token it returns SessionTokenNotPresent before any network
interaction; an InvalidHeaderValue send failure becomes
SessionTokenInvalid; other send or deserialization failures become
Reqwest; a remote code in the set INVALID_SESSION_INFORMATION, NO_SESSION
becomes SessionTokenInvalid; every other remote code passes through as
APINGException; a malformed envelope stays JSONRPCError. -/
def req_internal {T : Type} (maybe_token : Option String)
    (http : HttpOutcome T) : Option (Except Error T) :=
  match maybe_token with
  | none => some (.error .SessionTokenNotPresent)
  | some _ =>
    match http with
    | .sendErrInvalidHeader => some (.error .SessionTokenInvalid)
    | .sendErrOther msg => some (.error (.Reqwest msg))
    | .deserErr msg => some (.error (.Reqwest msg))
    | .ok resp =>
      match resp.into_inner with
      | .ok x => some (.ok x)
      | .error (.APINGException .INVALID_SESSION_INFORMATION)
      | .error (.APINGException .NO_SESSION) =>
          some (.error .SessionTokenInvalid)
      | .error (.APINGException e) => some (.error (.APINGException e))
      | .error .JSONRPCError => some (.error .JSONRPCError)
      | .error _ => none

/-- Outcome of one invocation of login (src/client.rs lines 328-361): the
local pkcs12 identity construction or client build can fail before any
network interaction; the send() or json() of the single login request can
fail at transport level; or a login response is obtained. -/
inductive LoginOutcome where
  | identityErr (msg : String)
  | transportErr (msg : String)
  | resp (r : LoginResponse)
  deriving DecidableEq, Repr

/-- src/client.rs BFClient::login (lines 328-361): failures become Reqwest
errors via the question-mark operator; from a response, a present
sessionToken is returned as the token regardless of loginStatus, an
absent one is a BFLoginFailure carrying the loginStatus string. -/
def login (outcome : LoginOutcome) : Except Error String :=
  match outcome with
  | .identityErr msg => .error (.Reqwest msg)
  | .transportErr msg => .error (.Reqwest msg)
  | .resp r =>
    match r.sessionToken with
    | some token => .ok token
    | none => .error (.BFLoginFailure ("loginStatus: " ++ r.loginStatus))

/-- Number of network attempts a single login invocation makes, by
outcome: the identity/client construction fails before the request is
sent; otherwise exactly one POST to the certlogin endpoint is made
(src/client.rs has no retry inside login). -/
def loginNetAttempts (outcome : LoginOutcome) : Nat :=
  match outcome with
  | .identityErr _ => 0
  | .transportErr _ => 1
  | .resp _ => 1

/-- Outcome of the single HTTP interaction of the keepalive function
(src/client.rs lines 364-393). -/
inductive KAOutcome where
  | transportErr (msg : String)
  | resp (r : KeepAliveResponse)
  deriving DecidableEq, Repr

/-- src/client.rs keepalive (lines 364-393).  Returns none where the
source panics: on a FAIL status the code unwraps the optional error field
of the response, which panics when that field is absent. -/
def keepalive (outcome : KAOutcome) : Option (Except Error Unit) :=
  match outcome with
  | .transportErr msg => some (.error (.Reqwest msg))
  | .resp r =>
    match r.status with
    | .SUCCESS => some (.ok ())
    | .FAIL =>
      match r.error with
      | some e => some (.error (.BFKeepAliveFailure e))
      | none => none

/-- The fixed delay, in milliseconds, slept after a failed login attempt
inside the retry loop of req (src/client.rs line 311:
thread::sleep(Duration::from_millis(5000))). -/
def LOGIN_RETRY_DELAY_MS : Nat := 5000

/-- Externally observable events of the client: a business call to the
JSON-RPC endpoint, a login call to the certlogin endpoint, a sleep of the
given number of milliseconds, and a keep-alive call to the identity
endpoint. -/
inductive Event where
  | business
  | login
  | sleep (ms : Nat)
  | keepAliveCall
  deriving DecidableEq, Repr

/-- Control point of the loop of req (src/client.rs lines 280-325):
attempt is the top of the outer loop (about to call req_internal);
loggingIn is inside the inner login loop of lines 299-314, with the write
lock held; done r is the break with result r; panicked marks the
unreachable! panic propagated out of req_internal. -/
inductive Phase (T : Type) where
  | attempt
  | loggingIn
  | done (r : Except Error T)
  | panicked
  deriving Repr

/-- State of one caller executing req, together with the shared token
slot: token is the caller's local snapshot (the variable token of req),
slot the value of the shared session_token cell, bi and li index the
business-call and login-call oracles (the number of those calls made so
far). -/
structure RState (T : Type) where
  phase : Phase T
  slot : Option String
  token : Option String
  bi : Nat
  li : Nat
  deriving Repr

/-- One loop iteration of req (src/client.rs lines 280-325).  In phase
attempt, req_internal is called with the current snapshot (a business
call happens only when a token is present; with no token,
req_internal returns SessionTokenNotPresent without any network
interaction).  On success or a non-auth error the loop breaks with that
result.  On SessionTokenNotPresent or SessionTokenInvalid the write lock
is taken and the slot double-checked against the snapshot: if they
differ, the slot's value is adopted and the loop continues with no login;
if they are equal, the caller enters the login loop.  In phase loggingIn,
one login attempt is made: on success the token is published to the slot
and the outer loop resumes; on failure the loop sleeps
LOGIN_RETRY_DELAY_MS and tries again.  Returns the new state and the
events of this iteration. -/
def step {T : Type} (httpO : Nat → HttpOutcome T) (loginO : Nat → LoginOutcome)
    (s : RState T) : RState T × List Event :=
  match s.phase with
  | .done _ => (s, [])
  | .panicked => (s, [])
  | .attempt =>
    let ev : List Event := if s.token.isSome then [.business] else []
    let bi' : Nat := if s.token.isSome then s.bi + 1 else s.bi
    match req_internal s.token (httpO s.bi) with
    | none => ({ s with phase := .panicked, bi := bi' }, ev)
    | some (.ok x) => ({ s with phase := .done (.ok x), bi := bi' }, ev)
    | some (.error .SessionTokenNotPresent)
    | some (.error .SessionTokenInvalid) =>
      if s.token ≠ s.slot then
        ({ s with token := s.slot, bi := bi' }, ev)
      else
        ({ s with phase := .loggingIn, bi := bi' }, ev)
    | some (.error e) => ({ s with phase := .done (.error e), bi := bi' }, ev)
  | .loggingIn =>
    match login (loginO s.li) with
    | .ok tok =>
      ({ s with phase := .attempt, slot := some tok, token := some tok,
                li := s.li + 1 }, [.login])
    | .error _ =>
      ({ s with li := s.li + 1 }, [.login, .sleep LOGIN_RETRY_DELAY_MS])

/-- Iterate step for the given amount of fuel, collecting events.  The
loops of req are unbounded in the source; fuel only truncates the
observation. -/
def run {T : Type} (httpO : Nat → HttpOutcome T) (loginO : Nat → LoginOutcome) :
    Nat → RState T → RState T × List Event
  | 0, s => (s, [])
  | fuel + 1, s =>
    let p := step httpO loginO s
    let q := run httpO loginO fuel p.1
    (q.1, p.2 ++ q.2)

/-- Entry of req (src/client.rs lines 272-278): the snapshot is
initialized from the shared slot under a read lock, then the loop runs. -/
def reqInit {T : Type} (slot : Option String) : RState T :=
  ⟨.attempt, slot, slot, 0, 0⟩

/-- src/client.rs BFClient::req, observed for a given amount of fuel. -/
def req {T : Type} (httpO : Nat → HttpOutcome T) (loginO : Nat → LoginOutcome)
    (fuel : Nat) (slot : Option String) : RState T × List Event :=
  run httpO loginO fuel (reqInit slot)

/-- A login oracle on which every attempt fails (the identity service
rejects the credentials: no sessionToken in the response). -/
def alwaysFailLogin : Nat → LoginOutcome :=
  fun _ => .resp ⟨none, "FAIL"⟩

/-- Result of one iteration of the keep-alive loop body
(src/client.rs lines 150-186): the loop exits on the destructor signal,
continues with a possibly updated local expired-token hint, or panics
(inside the keepalive function). -/
inductive IterResult where
  | exited
  | continued (expired : Option String)
  | panicked
  deriving DecidableEq, Repr

/-- One iteration of the loop of keepalive_thread (src/client.rs lines
143-188), as a function of: whether the destructor signal was received
this cycle, the value read from the shared token slot, the local
expired_token hint, and the keep-alive network outcome for the token.
Returns the iteration result, the value of the shared slot after the
iteration, and the events of the iteration.  The source only ever takes a
read lock on the slot inside this loop; the returned slot value records
that the iteration leaves it as it was. -/
def keepalive_thread_iter (signal : Bool) (slot : Option String)
    (expired : Option String) (ka : String → KAOutcome) :
    IterResult × Option String × List Event :=
  if signal then
    (.exited, slot, [])
  else
    match slot with
    | none => (.continued expired, slot, [])
    | some token =>
      match keepalive (ka token) with
      | some (.ok _) => (.continued expired, slot, [.keepAliveCall])
      | some (.error _) => (.continued (some token), slot, [.keepAliveCall])
      | none => (.panicked, slot, [.keepAliveCall])

/-!
Concurrency model for the double-checked refresh of req.  The shared
session_token cell is written only inside the write-locked section of req
(src/client.rs lines 290-318); the RwLock makes each execution of that
section atomic with respect to every other caller.  The model therefore
interleaves executions of the write section by a set of callers, each
with a local token snapshot; the login loop inside the section is
summarized by its eventually-successful result, a token drawn from the
oracle fresh at the index counting logins performed so far.
-/

/-- Shared state of the invalidation protocol: the shared token slot, the
local snapshots of the callers currently in their auth-recovery path, and
the number of logins performed so far. -/
structure MState where
  slot : Option String
  snaps : List (Option String)
  logins : Nat
  deriving DecidableEq, Repr

/-- One atomic execution of the write-locked section of req
(src/client.rs lines 290-318) by caller i.  If the caller's snapshot
still equals the slot (this caller is the first to notice the
staleness), it performs the login loop until success, obtaining the token
fresh s.logins, publishes it to the slot and to its own snapshot.  If the
snapshot differs from the slot, another caller already refreshed: the
slot's value is adopted as the new snapshot and no login is performed.
The returned Bool records whether a login was performed. -/
def writeSection (fresh : Nat → String) (s : MState) (i : Nat) : MState × Bool :=
  match s.snaps.get? i with
  | none => (s, false)
  | some snap =>
    if snap = s.slot then
      (⟨some (fresh s.logins), s.snaps.set i (some (fresh s.logins)),
        s.logins + 1⟩, true)
    else
      (⟨s.slot, s.snaps.set i s.slot, s.logins⟩, false)

/-- Run a schedule of write-section acquisitions (the order in which the
callers obtain the write lock), recording for each acquisition the value
of the slot at acquisition time and whether a login was performed. -/
def runEvents (fresh : Nat → String) : MState → List Nat → List (Option String × Bool)
  | _, [] => []
  | s, i :: rest =>
    let p := writeSection fresh s i
    (s.slot, p.2) :: runEvents fresh p.1 rest

/-- The slot values at which a login was performed along a schedule. -/
def loginSlots (fresh : Nat → String) (s : MState) (sched : List Nat) :
    List (Option String) :=
  (runEvents fresh s sched).filterMap fun e => if e.2 then some e.1 else none

namespace Lib

/-- src/lib.rs Error (lines 31-38): the error type of the older client
variant kept in lib.rs. -/
inductive Error where
  | Io (msg : String)
  | Reqwest (msg : String)
  | BFLoginFailure (msg : String)
  | General (msg : String)
  | Other
  deriving DecidableEq, Repr

/-- Outcome of the single HTTP interaction of one business call in the
lib.rs req_internal (lines 178-186): the send() can fail, the json()
deserialization can fail, or a response envelope is obtained. -/
inductive HttpOutcome (T : Type) where
  | sendErr (msg : String)
  | deserErr (msg : String)
  | ok (resp : RpcResponse T)
  deriving DecidableEq, Repr

/-- src/lib.rs BFClient::req_internal (lines 165-189), as a function of
the token snapshot and the HTTP outcome.  With no token it returns the
General error "req_internal: must login first"; a send failure is
propagated as a Reqwest error by the question-mark operator; the
deserialization result however is unwrapped, so a body that cannot be
deserialized into the expected typed response panics: that case is
returned as none. -/
def req_internal {T : Type} (maybe_token : Option String)
    (http : HttpOutcome T) :
    Option (Except Lib.Error (RpcResponse T)) :=
  match maybe_token with
  | none => some (.error (.General "req_internal: must login first"))
  | some _ =>
    match http with
    | .sendErr msg => some (.error (.Reqwest msg))
    | .deserErr _ => none
    | .ok resp => some (.ok resp)

end Lib

/-- The errors req treats as authentication failures: exactly the two
patterns of the first error arm of the loop of req (src/client.rs lines
287-288). -/
def isAuthError : Error → Bool
  | .SessionTokenNotPresent => true
  | .SessionTokenInvalid => true
  | _ => false

/-- Results the loop of req may terminate with: a typed result, or an
error that is neither an auth error nor a login failure. -/
def surfaceable {T : Type} : Except Error T → Prop
  | .ok _ => True
  | .error e => isAuthError e = false ∧ ∀ m, e ≠ .BFLoginFailure m

/-- A req-loop state whose phase, if terminated, carries a surfaceable
result. -/
def surfaceableState {T : Type} (s : RState T) : Prop :=
  ∀ r, s.phase = .done r → surfaceable r

/-- into_inner only ever produces a value, a remote APINGException, or the
JSONRPCError for a malformed envelope. -/
theorem into_inner_shape {T : Type} (r : RpcResponse T) :
    (∃ x, r.into_inner = .ok x) ∨
    (∃ c, r.into_inner = .error (.APINGException c)) ∨
    r.into_inner = .error .JSONRPCError := by
  rcases r with ⟨j, res, err, i⟩
  cases err <;> cases res <;>
    simp [RpcResponse.into_inner]

/-- req_internal never panics: the unreachable! arm of its match is dead
because into_inner only produces the shapes the other arms cover. -/
theorem req_internal_isSome {T : Type} (tok : Option String)
    (h : HttpOutcome T) : (req_internal tok h).isSome := by
  cases tok with
  | none => simp [req_internal]
  | some t =>
    cases h with
    | sendErrInvalidHeader => simp [req_internal]
    | sendErrOther m => simp [req_internal]
    | deserErr m => simp [req_internal]
    | ok resp =>
      rcases into_inner_shape resp with ⟨x, hx⟩ | ⟨c, hc⟩ | hj
      · simp [req_internal, hx]
      · cases c <;> simp [req_internal, hc]
      · simp [req_internal, hj]

/-- Every error produced by req_internal is an auth marker, a transport
error, a remote exception, or the malformed-envelope error; in
particular it is never a login or keep-alive failure. -/
theorem req_internal_error_shape {T : Type} (tok : Option String)
    (h : HttpOutcome T) (e : Error)
    (he : req_internal tok h = some (.error e)) :
    e = .SessionTokenNotPresent ∨ e = .SessionTokenInvalid ∨
    (∃ m, e = .Reqwest m) ∨ (∃ c, e = .APINGException c) ∨
    e = .JSONRPCError := by
  cases tok with
  | none =>
    simp [req_internal] at he
    simp [← he]
  | some t =>
    cases h with
    | sendErrInvalidHeader => simp [req_internal] at he; simp [← he]
    | sendErrOther m => simp [req_internal] at he; simp [← he]
    | deserErr m => simp [req_internal] at he; simp [← he]
    | ok resp =>
      rcases into_inner_shape resp with ⟨x, hx⟩ | ⟨c, hc⟩ | hj
      · simp [req_internal, hx] at he
      · cases c <;> simp [req_internal, hc] at he <;> simp [← he]
      · simp [req_internal, hj] at he; simp [← he]

/-- Running from a terminated state changes nothing and emits nothing. -/
theorem run_done {T : Type} (httpO : Nat → HttpOutcome T)
    (loginO : Nat → LoginOutcome) (fuel : Nat) (s : RState T) (r : Except Error T)
    (hs : s.phase = .done r) : run httpO loginO fuel s = (s, []) := by
  induction fuel with
  | zero => simp [run]
  | succ n ih =>
    have hstep : step httpO loginO s = (s, []) := by
      unfold step
      rw [hs]
    simp [run, hstep, ih]

/-- One loop iteration preserves surfaceability of the terminal result:
the only way step terminates the loop is with the typed result or with a
non-auth, non-login error coming out of req_internal. -/
theorem step_surfaceable {T : Type} (httpO : Nat → HttpOutcome T)
    (loginO : Nat → LoginOutcome) (s : RState T)
    (hs : surfaceableState s) : surfaceableState (step httpO loginO s).1 := by
  rcases s with ⟨ph, slot, token, bi, li⟩
  cases ph with
  | done r => simpa [step] using hs
  | panicked => simpa [step] using hs
  | attempt =>
    intro r hr
    rcases hri : req_internal token (httpO bi) with _ | v
    · simp [step, hri] at hr
    · cases v with
      | ok x =>
        simp [step, hri] at hr
        simp [← hr, surfaceable]
      | error e =>
        cases e with
        | Reqwest m =>
          simp [step, hri] at hr
          simp [← hr, surfaceable, isAuthError]
        | SessionTokenNotPresent =>
          simp [step, hri] at hr
          split at hr <;> simp at hr
        | SessionTokenInvalid =>
          simp [step, hri] at hr
          split at hr <;> simp at hr
        | APINGException c =>
          simp [step, hri] at hr
          simp [← hr, surfaceable, isAuthError]
        | JSONRPCError =>
          simp [step, hri] at hr
          simp [← hr, surfaceable, isAuthError]
        | BFLoginFailure m =>
          rcases req_internal_error_shape _ _ _ hri with h | h | ⟨m', h⟩ | ⟨c, h⟩ | h <;>
            simp at h
        | BFKeepAliveFailure k =>
          rcases req_internal_error_shape _ _ _ hri with h | h | ⟨m', h⟩ | ⟨c, h⟩ | h <;>
            simp at h
  | loggingIn =>
    intro r hr
    rcases hlo : login (loginO li) with e | tok <;> simp [step, hlo] at hr

/-- The loop of req preserves surfaceability of the terminal result. -/
theorem run_surfaceable {T : Type} (httpO : Nat → HttpOutcome T)
    (loginO : Nat → LoginOutcome) (fuel : Nat) (s : RState T)
    (hs : surfaceableState s) : surfaceableState (run httpO loginO fuel s).1 := by
  induction fuel generalizing s with
  | zero => simpa [run] using hs
  | succ n ih =>
    simp only [run]
    exact ih _ (step_surfaceable httpO loginO s hs)

/-- C2: if the gateway call of the first attempt yields any error that
req_internal does not classify as an auth error (a transport failure, a
remote code outside the session-invalid set, or a malformed envelope),
req terminates immediately with that error unchanged, having made exactly
one business call and no login, for every amount of further fuel. -/
theorem req_returns_non_auth_error_first_attempt {T : Type}
    (httpO : Nat → HttpOutcome T) (loginO : Nat → LoginOutcome)
    (t : String) (e : Error) (fuel : Nat)
    (he : req_internal (some t) (httpO 0) = some (.error e))
    (hna : isAuthError e = false) :
    req httpO loginO (fuel + 1) (some t) =
      (⟨.done (.error e), some t, some t, 1, 0⟩, [.business]) := by
  have hstep : step httpO loginO (reqInit (T := T) (some t)) =
      (⟨.done (.error e), some t, some t, 1, 0⟩, [.business]) := by
    cases e <;> simp_all [step, reqInit, isAuthError]
  have hrest : run httpO loginO fuel
      (⟨.done (.error e), some t, some t, 1, 0⟩ : RState T) =
      (⟨.done (.error e), some t, some t, 1, 0⟩, []) :=
    run_done httpO loginO fuel _ _ rfl
  simp [req, run, hstep, hrest]

/-- Witness for C2 at a concrete transport failure. -/
theorem req_returns_non_auth_error_first_attempt_witness :
    req (T := Nat) (fun _ => .sendErrOther "connection reset")
        (fun _ => .resp ⟨some "tok", "SUCCESS"⟩) 4 (some "t") =
      (⟨.done (.error (.Reqwest "connection reset")), some "t", some "t", 1, 0⟩,
        [.business]) :=
  req_returns_non_auth_error_first_attempt _ _ "t" (.Reqwest "connection reset")
    3 rfl rfl

/-- C8: into_inner returns a value exactly when the envelope has no error
and a present result; a present error takes precedence even over a
present result; neither present is the JSONRPCError protocol violation. -/
theorem into_inner_envelope_classification {T : Type} (r : RpcResponse T) :
    (∀ x, r.into_inner = .ok x ↔ (r.error = none ∧ r.result = some x)) ∧
    (∀ err, r.error = some err →
      r.into_inner = .error (.APINGException err.message)) ∧
    (r.error = none → r.result = none → r.into_inner = .error .JSONRPCError) := by
  rcases r with ⟨j, res, err, i⟩
  cases err <;> cases res <;> simp [RpcResponse.into_inner]

/-- Witness for C8: an envelope carrying both a result and an error
yields the error, with the result discarded. -/
theorem into_inner_envelope_classification_witness :
    RpcResponse.into_inner
        (⟨"2.0", some 5, some ⟨(-32099 : Int), .NO_APP_KEY⟩, "1"⟩ : RpcResponse Nat) =
      .error (.APINGException .NO_APP_KEY) :=
  (into_inner_envelope_classification
    (⟨"2.0", some 5, some ⟨(-32099 : Int), .NO_APP_KEY⟩, "1"⟩ : RpcResponse Nat)).2.1
    ⟨(-32099 : Int), .NO_APP_KEY⟩ rfl

/-- C9: a keep-alive response whose status is FAIL but whose error field
is absent makes the keepalive function panic (it unwraps the absent
error) instead of returning a keep-alive-failure error; the panic is the
none value of the embedding. -/
theorem keepalive_panics_on_fail_without_error (token product : String) :
    keepalive (.resp ⟨token, product, .FAIL, none⟩) = none := rfl

/-- C10: in the lib.rs variant, a response body that cannot be
deserialized into the expected typed response makes req_internal panic
(the deserialization result is unwrapped) instead of returning an error;
the panic is the none value of the embedding. -/
theorem lib_req_internal_panics_on_deser_failure {T : Type} (t msg : String) :
    Lib.req_internal (T := T) (some t) (.deserErr msg) = none := rfl

/-- C5 counterexample: a login response whose status is not a success
status but which carries a session token makes login return the token,
not a login failure: login keys on the presence of the sessionToken
field, never on the loginStatus field. -/
theorem login_succeeds_despite_failure_status :
    login (.resp ⟨some "sessiontok", "LIMITED_ACCESS"⟩) = .ok "sessiontok" ∧
    "LIMITED_ACCESS" ≠ "SUCCESS" := by
  exact ⟨rfl, by decide⟩

/-- C5 amended: login returns a session token exactly when the response
contains one (the status field is not consulted); when the token is
absent, login returns a login failure carrying the status string; and
login performs at most one network attempt per invocation, exactly one
whenever the login request is actually sent. -/
theorem login_token_presence_decides (r : LoginResponse) :
    (∀ t, r.sessionToken = some t → login (.resp r) = .ok t) ∧
    (r.sessionToken = none →
      login (.resp r) = .error (.BFLoginFailure ("loginStatus: " ++ r.loginStatus))) ∧
    loginNetAttempts (.resp r) = 1 ∧
    (∀ o, loginNetAttempts o ≤ 1) := by
  refine ⟨?_, ?_, rfl, ?_⟩
  · intro t ht
    simp [login, ht]
  · intro h
    simp [login, h]
  · intro o
    cases o <;> simp [loginNetAttempts]

/-- Witness for the amended C5 at a concrete successful response. -/
theorem login_token_presence_decides_witness :
    login (.resp ⟨some "tok", "SUCCESS"⟩) = .ok "tok" :=
  (login_token_presence_decides ⟨some "tok", "SUCCESS"⟩).1 "tok" rfl

/-- C6: one iteration of the keep-alive loop leaves the shared token
slot exactly as it was (it only ever takes a read lock), performs no
login and no business call, and the only state it may change is the
local expired-token hint, which either keeps its value or records the
token that just failed (which is the slot's value). -/
theorem keepalive_iter_frame (signal : Bool) (slot expired : Option String)
    (ka : String → KAOutcome) :
    (keepalive_thread_iter signal slot expired ka).2.1 = slot ∧
    Event.login ∉ (keepalive_thread_iter signal slot expired ka).2.2 ∧
    Event.business ∉ (keepalive_thread_iter signal slot expired ka).2.2 ∧
    (∀ e', (keepalive_thread_iter signal slot expired ka).1 = .continued e' →
      e' = expired ∨ e' = slot) := by
  cases signal with
  | true => simp [keepalive_thread_iter]
  | false =>
    cases slot with
    | none => simp [keepalive_thread_iter]
    | some token =>
      rcases hka : keepalive (ka token) with _ | r
      · simp [keepalive_thread_iter, hka]
      · cases r with
        | ok u => simp [keepalive_thread_iter, hka]
        | error e =>
          refine ⟨by simp [keepalive_thread_iter, hka], ?_, ?_, ?_⟩
          · simp [keepalive_thread_iter, hka]
          · simp [keepalive_thread_iter, hka]
          · intro e' he'
            simp [keepalive_thread_iter, hka] at he'
            exact .inr he'.symm

/-- Witness for C6: a failing keep-alive call records the failing token
as the expired hint, leaving the slot untouched. -/
theorem keepalive_iter_frame_witness :
    (keepalive_thread_iter false (some "t") none
        (fun _ => .resp ⟨"t", "p", .FAIL, some .NO_SESSION⟩)).2.1 = some "t" ∧
    ((some "t" : Option String) = none ∨ (some "t" : Option String) = some "t") :=
  ⟨(keepalive_iter_frame false (some "t") none
      (fun _ => .resp ⟨"t", "p", .FAIL, some .NO_SESSION⟩)).1,
    (keepalive_iter_frame false (some "t") none
      (fun _ => .resp ⟨"t", "p", .FAIL, some .NO_SESSION⟩)).2.2.2 (some "t") rfl⟩

/-- From the login phase, the first event the loop can emit is the login
attempt itself. -/
theorem run_loggingIn_head {T : Type} (httpO : Nat → HttpOutcome T)
    (loginO : Nat → LoginOutcome) (fuel : Nat) (s : RState T)
    (hs : s.phase = .loggingIn) :
    (run httpO loginO fuel s).2.head? = none ∨
    (run httpO loginO fuel s).2.head? = some .login := by
  cases fuel with
  | zero => left; simp [run]
  | succ n =>
    right
    rcases s with ⟨ph, slot, token, bi, li⟩
    simp only [RState.phase] at hs
    subst hs
    rcases hlo : login (loginO li) with e | tok <;> simp [run, step, hlo]

/-- C7: with an empty token slot, req makes no business network call with
the absent token: req_internal reports the absent token as an auth
failure without consuming the network, and in any execution of req
started on an empty slot a login attempt precedes every business call
(the first emitted event, if any, is a login). -/
theorem req_no_business_before_login_on_empty_slot {T : Type}
    (httpO : Nat → HttpOutcome T) (loginO : Nat → LoginOutcome) :
    (∀ h : HttpOutcome T,
      req_internal none h = some (.error .SessionTokenNotPresent)) ∧
    (∀ fuel, (req httpO loginO fuel none).2.head? = none ∨
      (req httpO loginO fuel none).2.head? = some .login) ∧
    (∀ fuel i, (req httpO loginO fuel none).2.get? i = some .business →
      ∃ j, j < i ∧ (req httpO loginO fuel none).2.get? j = some .login) := by
  have hhead : ∀ fuel, (req httpO loginO fuel none).2.head? = none ∨
      (req httpO loginO fuel none).2.head? = some Event.login := by
    intro fuel
    cases fuel with
    | zero => left; simp [req, run]
    | succ n =>
      have hstep : step httpO loginO (reqInit (T := T) none) =
          (⟨.loggingIn, none, none, 0, 0⟩, []) := rfl
      have : (req httpO loginO (n + 1) none).2 =
          (run httpO loginO n (⟨.loggingIn, none, none, 0, 0⟩ : RState T)).2 := by
        simp [req, run, hstep]
      rw [this]
      exact run_loggingIn_head httpO loginO n _ rfl
  refine ⟨fun _ => rfl, hhead, ?_⟩
  intro fuel i hbi
  rcases hevs : (req httpO loginO fuel none).2 with _ | ⟨a, tl⟩
  · rw [hevs] at hbi
    simp at hbi
  · have hh := hhead fuel
    rw [hevs] at hh hbi
    simp only [List.head?_cons] at hh
    rcases hh with hh | hh
    · cases hh
    · have ha : a = Event.login := by simpa using hh
      subst ha
      refine ⟨0, ?_, by simp⟩
      cases i with
      | zero => simp at hbi
      | succ m => exact Nat.succ_pos m

/-- Witness for C7: a concrete execution from an empty slot whose trace
is a login followed by the business call. -/
theorem req_no_business_before_login_on_empty_slot_witness :
    ∃ j, j < 1 ∧
      (req (T := Nat) (fun _ => .ok ⟨"2.0", some 7, none, "1"⟩)
          (fun _ => .resp ⟨some "T2", "SUCCESS"⟩) 3 none).2.get? j =
        some .login :=
  (req_no_business_before_login_on_empty_slot
    (fun _ => .ok ⟨"2.0", some 7, none, "1"⟩)
    (fun _ => .resp ⟨some "T2", "SUCCESS"⟩)).2.2 3 1 rfl

/-- Under a login oracle on which every attempt fails, the loop stays in
the login phase, making one login attempt per unit of fuel. -/
theorem run_alwaysFailLogin {T : Type} (httpO : Nat → HttpOutcome T) :
    ∀ (k : Nat) (slot token : Option String) (bi li : Nat),
    (run httpO alwaysFailLogin k (⟨.loggingIn, slot, token, bi, li⟩ : RState T)).1 =
      ⟨.loggingIn, slot, token, bi, li + k⟩ ∧
    (run httpO alwaysFailLogin k
      (⟨.loggingIn, slot, token, bi, li⟩ : RState T)).2.count .login = k := by
  intro k
  induction k with
  | zero => intro slot token bi li; simp [run]
  | succ n ih =>
    intro slot token bi li
    have hstep : step httpO alwaysFailLogin
        (⟨.loggingIn, slot, token, bi, li⟩ : RState T) =
        (⟨.loggingIn, slot, token, bi, li + 1⟩,
          [.login, .sleep LOGIN_RETRY_DELAY_MS]) := rfl
    have h := ih slot token bi (li + 1)
    refine ⟨?_, ?_⟩
    · simp only [run, hstep]
      rw [h.1]
      congr 1
      omega
    · simp only [run, hstep, List.count_append]
      rw [h.2]
      simp [List.count_cons]
      omega

/-- Every sleep a loop iteration emits is the fixed login retry delay. -/
theorem step_sleep_fixed {T : Type} (httpO : Nat → HttpOutcome T)
    (loginO : Nat → LoginOutcome) (s : RState T) (d : Nat)
    (hd : Event.sleep d ∈ (step httpO loginO s).2) : d = LOGIN_RETRY_DELAY_MS := by
  rcases s with ⟨ph, slot, token, bi, li⟩
  cases ph with
  | done r => simp [step] at hd
  | panicked => simp [step] at hd
  | attempt =>
    rcases hri : req_internal token (httpO bi) with _ | v
    · cases token <;> simp [step, hri] at hd
    · cases v with
      | ok x => cases token <;> simp [step, hri] at hd
      | error e =>
        cases e <;> cases token <;>
          simp [step, hri, apply_ite, ite_self] at hd
  | loggingIn =>
    rcases hlo : login (loginO li) with e | tok <;> simp [step, hlo] at hd
    omega

/-- Every sleep the loop of req emits is the fixed login retry delay. -/
theorem run_sleep_fixed {T : Type} (httpO : Nat → HttpOutcome T)
    (loginO : Nat → LoginOutcome) :
    ∀ (fuel : Nat) (s : RState T) (d : Nat),
    Event.sleep d ∈ (run httpO loginO fuel s).2 → d = LOGIN_RETRY_DELAY_MS := by
  intro fuel
  induction fuel with
  | zero => intro s d hd; simp [run] at hd
  | succ n ih =>
    intro s d hd
    simp only [run, List.mem_append] at hd
    rcases hd with hd | hd
    · exact step_sleep_fixed httpO loginO s d hd
    · exact ih _ d hd

/-- C4: req never surfaces an auth error or a login failure (when login
fails, it retries instead of returning); under a login oracle that always
fails there is no bound on the number of login attempts made, and the
loop never terminates; and every delay slept between login attempts is
the fixed 5000 ms constant, with no growth. -/
theorem req_login_retry_unbounded_fixed_delay {T : Type}
    (httpO : Nat → HttpOutcome T) :
    (∀ (loginO : Nat → LoginOutcome) (fuel : Nat) (slot : Option String)
        (e : Error),
      (req httpO loginO fuel slot).1.phase = .done (.error e) →
      isAuthError e = false ∧ ∀ m, e ≠ .BFLoginFailure m) ∧
    (∀ n : Nat, ∃ fuel,
      (req httpO alwaysFailLogin fuel (none : Option String)).2.count .login = n ∧
      ∀ r : Except Error T,
        (req httpO alwaysFailLogin fuel (none : Option String)).1.phase ≠ .done r) ∧
    (∀ (loginO : Nat → LoginOutcome) (fuel : Nat) (slot : Option String) (d : Nat),
      Event.sleep d ∈ (req httpO loginO fuel slot).2 →
      d = LOGIN_RETRY_DELAY_MS) := by
  refine ⟨?_, ?_, ?_⟩
  · intro loginO fuel slot e hph
    have hinit : surfaceableState (reqInit (T := T) slot) := by
      intro r hr
      simp [reqInit] at hr
    have h := run_surfaceable httpO loginO fuel _ hinit (.error e) hph
    exact h
  · intro n
    refine ⟨n + 1, ?_, ?_⟩
    · have hstep : step httpO alwaysFailLogin (reqInit (T := T) none) =
          (⟨.loggingIn, none, none, 0, 0⟩, []) := rfl
      have h := (run_alwaysFailLogin httpO n none none 0 0).2
      simp [req, run, hstep, h]
    · intro r hr
      have hstep : step httpO alwaysFailLogin (reqInit (T := T) none) =
          (⟨.loggingIn, none, none, 0, 0⟩, []) := rfl
      have h := (run_alwaysFailLogin httpO n none none 0 0).1
      simp only [req, run, hstep] at hr
      rw [h] at hr
      simp at hr
  · intro loginO fuel slot d hd
    exact run_sleep_fixed httpO loginO fuel _ d hd

/-- Witness for C4: a concrete execution terminating with a transport
error, whose returned error is neither an auth error nor a login
failure. -/
theorem req_login_retry_unbounded_fixed_delay_witness :
    isAuthError (.Reqwest "connection reset") = false ∧
    ∀ m, Error.Reqwest "connection reset" ≠ .BFLoginFailure m :=
  (req_login_retry_unbounded_fixed_delay (T := Nat)
      (fun _ => .sendErrOther "connection reset")).1
    (fun _ => .resp ⟨some "tok", "SUCCESS"⟩) 1 (some "t")
    (.Reqwest "connection reset") rfl

/-- C3: the outcomes req_internal classifies as auth errors are exactly:
no token in the slot, a token rejected at the transport layer as an
invalid header value, and a remote error code in the set containing
INVALID_SESSION_INFORMATION and NO_SESSION; every remote error code
outside that set is passed through to the caller as the same
APINGException; and req never surfaces an auth error. -/
theorem req_internal_auth_error_classification {T : Type} :
    (∀ (tok : Option String) (h : HttpOutcome T),
      (req_internal tok h = some (.error .SessionTokenNotPresent) ∨
       req_internal tok h = some (.error .SessionTokenInvalid)) ↔
      (tok = none ∨ h = .sendErrInvalidHeader ∨
       ∃ r err, h = .ok r ∧ r.error = some err ∧
         (err.message = .INVALID_SESSION_INFORMATION ∨
          err.message = .NO_SESSION))) ∧
    (∀ (t : String) (r : RpcResponse T) (err : RpcError),
      r.error = some err →
      err.message ≠ .INVALID_SESSION_INFORMATION →
      err.message ≠ .NO_SESSION →
      req_internal (some t) (.ok r) =
        some (.error (.APINGException err.message))) ∧
    (∀ (httpO : Nat → HttpOutcome T) (loginO : Nat → LoginOutcome)
        (fuel : Nat) (slot : Option String) (e : Error),
      (req httpO loginO fuel slot).1.phase = .done (.error e) →
      isAuthError e = false) := by
  refine ⟨?_, ?_, ?_⟩
  · intro tok h
    constructor
    · intro hlhs
      cases tok with
      | none => exact .inl rfl
      | some t =>
        refine .inr ?_
        cases h with
        | sendErrInvalidHeader => exact .inl rfl
        | sendErrOther m => simp [req_internal] at hlhs
        | deserErr m => simp [req_internal] at hlhs
        | ok resp =>
          refine .inr ?_
          rcases hres : resp.error with _ | err
          · rcases hr2 : resp.result with _ | x <;>
              simp [req_internal, RpcResponse.into_inner, hres, hr2] at hlhs
          · refine ⟨resp, err, rfl, hres, ?_⟩
            cases hc : err.message <;>
              simp [req_internal, RpcResponse.into_inner, hres, hc] at hlhs ⊢
    · intro hrhs
      rcases hrhs with htok | hh | ⟨r, err, hh, hres, hcode⟩
      · subst htok
        exact .inl rfl
      · subst hh
        cases tok with
        | none => exact .inl rfl
        | some t => exact .inr rfl
      · subst hh
        cases tok with
        | none => exact .inl rfl
        | some t =>
          refine .inr ?_
          rcases hcode with hc | hc <;>
            simp [req_internal, RpcResponse.into_inner, hres, hc]
  · intro t r err hres h1 h2
    cases hc : err.message <;> rw [hc] at h1 h2 <;>
      simp [req_internal, RpcResponse.into_inner, hres, hc] at h1 h2 ⊢
  · intro httpO loginO fuel slot e hph
    have hinit : surfaceableState (reqInit (T := T) slot) := by
      intro r hr
      simp [reqInit] at hr
    exact (run_surfaceable httpO loginO fuel _ hinit (.error e) hph).1

/-- Witness for C3: a remote code outside the session-invalid set is
passed through untouched. -/
theorem req_internal_auth_error_classification_witness :
    req_internal (T := Nat) (some "t")
        (.ok ⟨"2.0", none, some ⟨(-32099 : Int), .TOO_MUCH_DATA⟩, "1"⟩) =
      some (.error (.APINGException .TOO_MUCH_DATA)) :=
  (req_internal_auth_error_classification (T := Nat)).2.1 "t"
    ⟨"2.0", none, some ⟨(-32099 : Int), .TOO_MUCH_DATA⟩, "1"⟩
    ⟨(-32099 : Int), .TOO_MUCH_DATA⟩ rfl (by decide) (by decide)

/-- Invariant of the invalidation protocol: the slot holds the initial
value until the first login, and afterwards the token published by the
most recent login. -/
def SlotInv (fresh : Nat → String) (v0 : Option String) (s : MState) : Prop :=
  (s.logins = 0 ∧ s.slot = v0) ∨
  (0 < s.logins ∧ s.slot = some (fresh (s.logins - 1)))

/-- A value the slot held strictly before its current value. -/
def StaleVal (fresh : Nat → String) (v0 : Option String) (v : Option String)
    (s : MState) : Prop :=
  (v = v0 ∧ 0 < s.logins) ∨ ∃ j, v = some (fresh j) ∧ j + 1 < s.logins

/-- Equation for the write section when the caller's snapshot still
equals the slot: a login is performed. -/
theorem writeSection_snap_eq (fresh : Nat → String) (s : MState) (i : Nat)
    (snap : Option String) (hg : s.snaps.get? i = some snap)
    (heq : snap = s.slot) :
    writeSection fresh s i =
      (⟨some (fresh s.logins), s.snaps.set i (some (fresh s.logins)),
        s.logins + 1⟩, true) := by
  unfold writeSection
  rw [hg]
  simp [heq]

/-- Equation for the write section when the slot was refreshed by
another caller: the slot's value is adopted and no login happens. -/
theorem writeSection_snap_ne (fresh : Nat → String) (s : MState) (i : Nat)
    (snap : Option String) (hg : s.snaps.get? i = some snap)
    (hne : snap ≠ s.slot) :
    writeSection fresh s i = (⟨s.slot, s.snaps.set i s.slot, s.logins⟩, false) := by
  unfold writeSection
  rw [hg]
  simp [hne]

/-- Equation for the write section at an out-of-range caller index. -/
theorem writeSection_oob (fresh : Nat → String) (s : MState) (i : Nat)
    (hg : s.snaps.get? i = none) : writeSection fresh s i = (s, false) := by
  unfold writeSection
  rw [hg]

/-- The write section preserves the slot invariant. -/
theorem writeSection_inv (fresh : Nat → String) (v0 : Option String)
    (s : MState) (i : Nat) (hs : SlotInv fresh v0 s) :
    SlotInv fresh v0 (writeSection fresh s i).1 := by
  rcases hg : s.snaps.get? i with _ | snap
  · rw [writeSection_oob fresh s i hg]
    exact hs
  · by_cases heq : snap = s.slot
    · rw [writeSection_snap_eq fresh s i snap hg heq]
      simp [SlotInv]
    · rw [writeSection_snap_ne fresh s i snap hg heq]
      simpa [SlotInv] using hs

/-- The write section preserves staleness of a value (the login counter
never decreases). -/
theorem writeSection_stale (fresh : Nat → String) (v0 : Option String)
    (v : Option String) (s : MState) (i : Nat)
    (hv : StaleVal fresh v0 v s) : StaleVal fresh v0 v (writeSection fresh s i).1 := by
  rcases hg : s.snaps.get? i with _ | snap
  · rw [writeSection_oob fresh s i hg]
    exact hv
  · by_cases heq : snap = s.slot
    · rw [writeSection_snap_eq fresh s i snap hg heq]
      rcases hv with ⟨hvv, hp⟩ | ⟨j, hvv, hj⟩
      · exact .inl ⟨hvv, Nat.succ_pos _⟩
      · exact .inr ⟨j, hvv, Nat.lt_succ_of_lt hj⟩
    · rw [writeSection_snap_ne fresh s i snap hg heq]
      rcases hv with ⟨hvv, hp⟩ | ⟨j, hvv, hj⟩
      · exact .inl ⟨hvv, hp⟩
      · exact .inr ⟨j, hvv, hj⟩

/-- Under the slot invariant, a stale value is never the current slot
value: the fresh tokens are injective and never equal to the initial
value. -/
theorem stale_ne_slot (fresh : Nat → String) (hfresh : Function.Injective fresh)
    (v0 : Option String) (hv0 : ∀ k, (some (fresh k) : Option String) ≠ v0)
    (v : Option String) (s : MState) (hs : SlotInv fresh v0 s)
    (hv : StaleVal fresh v0 v s) : v ≠ s.slot := by
  rcases hs with ⟨h0, hslot⟩ | ⟨hp, hslot⟩
  · rcases hv with ⟨_, hp⟩ | ⟨j, _, hj⟩ <;> omega
  · rcases hv with ⟨hvv, _⟩ | ⟨j, hvv, hj⟩
    · rw [hvv, hslot]
      intro h
      exact hv0 _ h.symm
    · rw [hvv, hslot]
      intro h
      have : j = s.logins - 1 := hfresh (Option.some_injective _ h)
      omega

/-- Splitting one scheduled acquisition off the login-value list. -/
theorem loginSlots_cons (fresh : Nat → String) (s : MState) (i : Nat)
    (rest : List Nat) :
    loginSlots fresh s (i :: rest) =
      (if (writeSection fresh s i).2 then [s.slot] else []) ++
        loginSlots fresh (writeSection fresh s i).1 rest := by
  simp only [loginSlots, runEvents]
  rcases writeSection fresh s i with ⟨s', b⟩
  cases b <;> simp

/-- A stale value never appears among the slot values at which later
logins are performed. -/
theorem stale_not_mem (fresh : Nat → String) (hfresh : Function.Injective fresh)
    (v0 : Option String) (hv0 : ∀ k, (some (fresh k) : Option String) ≠ v0)
    (v : Option String) :
    ∀ (sched : List Nat) (s : MState), SlotInv fresh v0 s →
      StaleVal fresh v0 v s → v ∉ loginSlots fresh s sched := by
  intro sched
  induction sched with
  | nil => intro s _ _; simp [loginSlots, runEvents]
  | cons i rest ih =>
    intro s hs hv
    rw [loginSlots_cons]
    simp only [List.mem_append]
    intro hmem
    rcases hmem with hmem | hmem
    · rcases hb : (writeSection fresh s i).2 with _ | _
      · rw [hb] at hmem
        simp at hmem
      · rw [hb] at hmem
        simp at hmem
        exact stale_ne_slot fresh hfresh v0 hv0 v s hs hv hmem
    · exact ih _ (writeSection_inv fresh v0 s i hs)
        (writeSection_stale fresh v0 v s i hv) hmem

/-- After a login, the slot value at which it was performed becomes
stale. -/
theorem slot_stale_after_login (fresh : Nat → String) (v0 : Option String)
    (s : MState) (i : Nat) (hs : SlotInv fresh v0 s)
    (hb : (writeSection fresh s i).2 = true) :
    StaleVal fresh v0 s.slot (writeSection fresh s i).1 := by
  rcases hg : s.snaps.get? i with _ | snap
  · rw [writeSection_oob fresh s i hg] at hb
    simp at hb
  · by_cases heq : snap = s.slot
    · rw [writeSection_snap_eq fresh s i snap hg heq]
      rcases hs with ⟨h0, hslot⟩ | ⟨hp, hslot⟩
      · exact .inl ⟨hslot, Nat.succ_pos _⟩
      · refine .inr ⟨s.logins - 1, hslot, ?_⟩
        show s.logins - 1 + 1 < s.logins + 1
        omega
    · rw [writeSection_snap_ne fresh s i snap hg heq] at hb
      simp at hb

/-- The list of slot values at which logins are performed along any
schedule has no duplicates. -/
theorem loginSlots_nodup (fresh : Nat → String)
    (hfresh : Function.Injective fresh) (v0 : Option String)
    (hv0 : ∀ k, (some (fresh k) : Option String) ≠ v0) :
    ∀ (sched : List Nat) (s : MState), SlotInv fresh v0 s →
      (loginSlots fresh s sched).Nodup := by
  intro sched
  induction sched with
  | nil => intro s _; simp [loginSlots, runEvents]
  | cons i rest ih =>
    intro s hs
    rw [loginSlots_cons]
    rcases hb : (writeSection fresh s i).2 with _ | _
    · simpa using ih _ (writeSection_inv fresh v0 s i hs)
    · rw [if_pos rfl]
      simp only [List.singleton_append, List.nodup_cons]
      refine ⟨?_, ih _ (writeSection_inv fresh v0 s i hs)⟩
      exact stale_not_mem fresh hfresh v0 hv0 s.slot rest _
        (writeSection_inv fresh v0 s i hs)
        (slot_stale_after_login fresh v0 s i hs hb)

/-- C1: for every invalidation event of the shared token slot, at most
one login is performed.  Along any schedule of write-lock acquisitions
starting from a never-logged-in counter and any initial slot value, with
the login oracle producing genuinely fresh tokens (injective, never
equal to the initial value), each slot value is the acquisition-time
value of at most one login.  Moreover, a caller whose snapshot still
equals the slot performs the login and publishes the fresh token, and a
caller whose snapshot differs adopts the slot's value and performs no
login. -/
theorem req_at_most_one_login_per_invalidation
    (fresh : Nat → String) (hfresh : Function.Injective fresh)
    (v0 : Option String) (hv0 : ∀ k, (some (fresh k) : Option String) ≠ v0)
    (snaps0 : List (Option String)) (sched : List Nat) (v : Option String) :
    @List.count (Option String) instBEqOfDecidableEq v
      (loginSlots fresh ⟨v0, snaps0, 0⟩ sched) ≤ 1 ∧
    (∀ (s : MState) (i : Nat) (snap : Option String),
      s.snaps.get? i = some snap → snap = s.slot →
      writeSection fresh s i =
        (⟨some (fresh s.logins), s.snaps.set i (some (fresh s.logins)),
          s.logins + 1⟩, true)) ∧
    (∀ (s : MState) (i : Nat) (snap : Option String),
      s.snaps.get? i = some snap → snap ≠ s.slot →
      writeSection fresh s i = (⟨s.slot, s.snaps.set i s.slot, s.logins⟩, false)) := by
  refine ⟨?_, ?_, ?_⟩
  · exact List.nodup_iff_count_le_one.mp
      (loginSlots_nodup fresh hfresh v0 hv0 sched ⟨v0, snaps0, 0⟩
        (.inl ⟨rfl, rfl⟩)) v
  · intro s i snap hg heq
    exact writeSection_snap_eq fresh s i snap hg heq
  · intro s i snap hg hne
    exact writeSection_snap_ne fresh s i snap hg hne

/-- Witness for C1: three callers sharing an empty initial slot, a
genuinely fresh token sequence, and the schedule on which caller 0 logs
in and callers 1 and 2 adopt: at most one login at the initial value. -/
theorem req_at_most_one_login_per_invalidation_witness :
    @List.count (Option String) instBEqOfDecidableEq none
      (loginSlots (fun k => String.mk (List.replicate k 'a'))
        ⟨none, [none, none, none], 0⟩ [0, 1, 2]) ≤ 1 :=
  (req_at_most_one_login_per_invalidation
    (fun k => String.mk (List.replicate k 'a'))
    (fun a b hab => by
      have h := congrArg String.length hab
      simpa using h)
    none (fun k => by simp)
    [none, none, none] [0, 1, 2] none).1

end Botfair
